import Mathlib

/-!
# trufgrate: migration-set resolution and orchestration

A shallow embedding of `main.go`, `primitive.go` and `composed.go`.

* Go slices are `List`s.
* A Go `map[string]V` is an association list kept in insertion order; a
  `map[string]struct{}` is the list of its keys.  Iterating a Go map
  (`for _, v := range m`) visits the values in an unspecified order, which is
  modelled by an explicit reordering function supplied by the environment.
* A Go `error` is `Option String` (`none` is `nil`); a `(T, error)` result is
  `Except String T`.
* Remote calls are recorded in an explicit event trace that is threaded through
  the commands.
-/

namespace Trufgrate

/-! ## Go maps -/

/-- A Go `map[string]struct{}`: the keys, in insertion order, without repetition. -/
abbrev StringSet := List String

/-- The assignment `m[k] = struct{}{}`. -/
def StringSet.set (m : StringSet) (k : String) : StringSet :=
  if k ∈ m then m else m ++ [k]

/-- The lookup `_, ok := m[k]`. -/
def StringSet.has (m : StringSet) (k : String) : Bool :=
  decide (k ∈ m)

/-- A Go `map[string]V`: key/value pairs in insertion order, keys without repetition. -/
abbrev GoMap (V : Type) := List (String × V)

/-- The lookup `v, ok := m[k]`. -/
def GoMap.get {V : Type} (m : GoMap V) (k : String) : Option V :=
  match m with
  | [] => none
  | (k', v) :: rest => if k' = k then some v else GoMap.get rest k

/-- The assignment `m[k] = v`. -/
def GoMap.set {V : Type} (m : GoMap V) (k : String) (v : V) : GoMap V :=
  match m with
  | [] => [(k, v)]
  | (k', v') :: rest => if k' = k then (k, v) :: rest else (k', v') :: GoMap.set rest k v

/-! ## `main.go`: `contains` -/

/-- The first loop of `contains`: `for _, v := range a { aMap[v] = struct{}{} }`. -/
def containsBuild (a : List String) : StringSet :=
  a.foldl StringSet.set []

/-- The second loop of `contains`: return `(false, v)` at the first `v` of `b` that
is not a key of `aMap`, and `(true, "")` when the loop runs to its end. -/
def containsCheck (aMap : StringSet) : List String → Bool × String
  | [] => (true, "")
  | v :: rest => if aMap.has v then containsCheck aMap rest else (false, v)

/-- The function `contains(a, b)` of `main.go`. -/
def contains (a b : List String) : Bool × String :=
  containsCheck (containsBuild a) b

/-- The first element of `b`, in the order of `b`, that does not occur in `a`. -/
def firstMissing (a b : List String) : Option String :=
  b.find? (fun v => decide (v ∉ a))

/-! ## External collaborators -/

/-- The type `types.Schema` of kwil-db.  The program only writes its `Name` field;
everything else that `parse.Parse` produced is kept in `Body`. -/
structure Schema where
  Name : String
  Body : String
deriving DecidableEq, Repr

/-- The type `auth.EthPersonalSigner`, holding the private key it was built from. -/
structure Signer where
  Key : String
deriving DecidableEq, Repr

/-- The type `types.DatasetIdentifier` returned by `ListDatabases`. -/
structure DatasetIdentifier where
  Name : String
  Owner : String
deriving DecidableEq, Repr

/-- The type `decimal.Decimal` of kwil-db: an unscaled integer and a scale. -/
structure Decimal where
  Unscaled : Int
  Scale : Nat
deriving DecidableEq, Repr

/-- A call made to an external collaborator, as recorded in the trace of a run. -/
inductive Event where
  /-- The call `crypto.Secp256k1PrivateKeyFromHex(keyHex)` made by `makeSigner`. -/
  | makeSigner (keyHex : String)
  /-- The call `client.NewClient(ctx, rpc, &ctypes.Options{Signer: signer})`. -/
  | newClient (rpc : String) (signer : Signer)
  /-- The call `client.ListDatabases(ctx, identity)`. -/
  | listDatabases (identity : String)
  /-- The call `client.DropDatabase(ctx, streamID, ctypes.WithSyncBroadcast(true))`. -/
  | dropDatabase (streamID : String)
  /-- The call `client.DeployDatabase(ctx, schema, ctypes.WithSyncBroadcast(true))`. -/
  | deployDatabase (schema : Schema)
deriving DecidableEq, Repr

/-- Whether an event is a list, drop or deploy request to the remote client. -/
def Event.isRequest : Event → Bool
  | .listDatabases _ => true
  | .dropDatabase _ => true
  | .deployDatabase _ => true
  | _ => false

/-- Whether an event is a drop or deploy request to the remote client. -/
def Event.isDropOrDeploy : Event → Bool
  | .dropDatabase _ => true
  | .deployDatabase _ => true
  | _ => false

/-- The remote client `ctypes.Client`.  Each method receives the trace of the calls
made before it, so that the answer of the remote side may depend on the history. -/
structure Client where
  ListDatabases : List Event → String → Except String (List DatasetIdentifier)
  DropDatabase : List Event → String → Option String
  DeployDatabase : List Event → Schema → Option String

/-- Everything outside the program: key decoding, the network, the file system, the
decimal and integer parsers of the libraries, and the iteration order of Go maps. -/
structure Env where
  /-- The function `crypto.Secp256k1PrivateKeyFromHex`. -/
  Secp256k1PrivateKeyFromHex : String → Except String String
  /-- The method `signer.Identity()`. -/
  Identity : Signer → String
  /-- The function `client.NewClient`. -/
  NewClient : String → Signer → Except String Client
  /-- The function `os.ReadFile`. -/
  ReadFile : String → Except String String
  /-- The function `parse.Parse`. -/
  Parse : String → Except String Schema
  /-- The function `os.Open` followed by the lexer of `encoding/csv`: the records of
  the file at a path, each a non-empty list of fields. -/
  Open : String → Except String (List (List String))
  /-- The function `decimal.NewFromString`. -/
  NewFromString : String → Except String Decimal
  /-- The function `strconv.Atoi`. -/
  Atoi : String → Except String Int
  /-- The order in which `range` visits the entries of a map. -/
  MapRange : {V : Type} → GoMap V → List (String × V)

/-- The result of a function that may also crash with a run-time panic. -/
inductive Outcome (α : Type) where
  | ok (a : α)
  | error (msg : String)
  | panic (msg : String)
deriving DecidableEq, Repr

/-- The slice index expression `record[i]`, which panics when `i` is out of range. -/
def index (record : List String) (i : Nat) : Outcome String :=
  match record[i]? with
  | some v => .ok v
  | none => .panic "index out of range"

/-! ## `encoding/csv` with its default settings -/

/-- A `csv.Reader` created by `csv.NewReader`: `FieldsPerRecord` starts at `0`, which
makes the first record read fix the number of fields of all later ones. -/
structure CsvReader where
  FieldsPerRecord : Nat
  records : List (List String)
deriving DecidableEq, Repr

/-- The constructor `csv.NewReader(file)`. -/
def NewReader (records : List (List String)) : CsvReader :=
  { FieldsPerRecord := 0, records := records }

/-- The method `reader.Read()`. -/
def CsvReader.Read (r : CsvReader) : Except String (List String) × CsvReader :=
  match r.records with
  | [] => (.error "EOF", r)
  | record :: rest =>
    if r.FieldsPerRecord = 0 then
      (.ok record, { FieldsPerRecord := record.length, records := rest })
    else if record.length ≠ r.FieldsPerRecord then
      (.error "wrong number of fields", { r with records := rest })
    else
      (.ok record, { r with records := rest })

/-- The loop of `reader.ReadAll()` over the remaining records. -/
def readAllLoop (fieldsPerRecord : Nat) :
    List (List String) → List (List String) → Except String (List (List String))
  | [], acc => .ok acc
  | record :: rest, acc =>
    if fieldsPerRecord = 0 then
      readAllLoop record.length rest (acc ++ [record])
    else if record.length ≠ fieldsPerRecord then
      .error "wrong number of fields"
    else
      readAllLoop fieldsPerRecord rest (acc ++ [record])

/-- The method `reader.ReadAll()`. -/
def CsvReader.ReadAll (r : CsvReader) : Except String (List (List String)) :=
  readAllLoop r.FieldsPerRecord r.records []

/-- The part shared by both loaders: open the file, read and drop the header, read
all remaining records. -/
def readRecords (env : Env) (filePath : String) : Except String (List (List String)) :=
  match env.Open filePath with
  | .error e => .error ("error opening file: " ++ e)
  | .ok file =>
    let reader := NewReader file
    match reader.Read with
    | (.error e, _) => .error ("error reading headers: " ++ e)
    | (.ok _, reader1) =>
      match reader1.ReadAll with
      | .error e => .error ("error reading records: " ++ e)
      | .ok records => .ok records

/-! ## `main.go`: `makeSigner`, `readInSchema`, `setupMigration` -/

/-- The function `makeSigner(keyHex)`. -/
def makeSigner (env : Env) (log : List Event) (keyHex : String) :
    Except String Signer × List Event :=
  match env.Secp256k1PrivateKeyFromHex keyHex with
  | .error e => (.error e, log ++ [.makeSigner keyHex])
  | .ok key => (.ok { Key := key }, log ++ [.makeSigner keyHex])

/-- The function `readInSchema(path)`. -/
def readInSchema (env : Env) (path : String) : Except String Schema :=
  match env.ReadFile path with
  | .error e => .error e
  | .ok schemaBytes =>
    match env.Parse schemaBytes with
    | .error e => .error e
    | .ok schema => .ok schema

/-- The function `setupMigration(ctx, rpc, privateKey, schemaPath)`; the parameters
are in the order of the Go signature. -/
def setupMigration (env : Env) (log : List Event) (rpc privateKey schemaPath : String) :
    Except String (Client × Signer × Schema) × List Event :=
  match makeSigner env log privateKey with
  | (.error e, log1) => (.error e, log1)
  | (.ok signer, log1) =>
    let log2 := log1 ++ [.newClient rpc signer]
    match env.NewClient rpc signer with
    | .error e => (.error e, log2)
    | .ok cl =>
      match readInSchema env schemaPath with
      | .error e => (.error e, log2)
      | .ok schema => (.ok (cl, signer, schema), log2)

/-! ## `primitive.go` -/

/-- The struct `PrimitiveStreamData`. -/
structure PrimitiveStreamData where
  StreamID : String
  SourceType : String
  SourceID : String
  UpdateFrequency : Int
deriving DecidableEq, Repr

/-- The body of the record loop of `readPrimitiveCSV`. -/
def primitiveRecord (env : Env) (record : List String) : Outcome PrimitiveStreamData :=
  match index record 3 with
  | .panic m => .panic m
  | .error e => .error e
  | .ok f3 =>
    match env.Atoi f3 with
    | .error e => .error ("error parsing update_frequency: " ++ e)
    | .ok updateFreq =>
      match index record 0 with
      | .panic m => .panic m
      | .error e => .error e
      | .ok f0 =>
        match index record 1 with
        | .panic m => .panic m
        | .error e => .error e
        | .ok f1 =>
          match index record 2 with
          | .panic m => .panic m
          | .error e => .error e
          | .ok f2 =>
            .ok { StreamID := f0, SourceType := f1, SourceID := f2,
                  UpdateFrequency := updateFreq }

/-- The record loop of `readPrimitiveCSV`. -/
def primitiveRecords (env : Env) :
    List (List String) → List PrimitiveStreamData → Outcome (List PrimitiveStreamData)
  | [], data => .ok data
  | record :: rest, data =>
    match primitiveRecord env record with
    | .panic m => .panic m
    | .error e => .error e
    | .ok streamData => primitiveRecords env rest (data ++ [streamData])

/-- The function `readPrimitiveCSV(filePath)`. -/
def readPrimitiveCSV (env : Env) (filePath : String) : Outcome (List PrimitiveStreamData) :=
  match readRecords env filePath with
  | .error e => .error e
  | .ok records => primitiveRecords env records []

/-- The state a run threads through the executor: the shared schema template, whose
`Name` is overwritten for every stream, and the trace of calls made so far. -/
structure RunState where
  schema : Schema
  log : List Event
deriving DecidableEq, Repr

/-- The function `migratePrimitive(ctx, client, schema, streamdID)`. -/
def migratePrimitive (client : Client) (st : RunState) (streamdID : String) :
    Option String × RunState :=
  match client.DropDatabase st.log streamdID with
  | some err => (some err, { st with log := st.log ++ [.dropDatabase streamdID] })
  | none =>
    let log1 := st.log ++ [.dropDatabase streamdID]
    let schema1 : Schema := { st.schema with Name := streamdID }
    match client.DeployDatabase log1 schema1 with
    | some err => (some err, { schema := schema1, log := log1 ++ [.deployDatabase schema1] })
    | none => (none, { schema := schema1, log := log1 ++ [.deployDatabase schema1] })

/-- The loop `for _, s := range allSchemas` of `primitiveCmd`. -/
def primitiveLoop (client : Client) (st : RunState) : List String → Option String × RunState
  | [] => (none, st)
  | s :: rest =>
    match migratePrimitive client st s with
    | (some err, st1) => (some err, st1)
    | (none, st1) => primitiveLoop client st1 rest

/-- The flags of the `primitive` command. -/
structure PrimitiveFlags where
  schemas : List String
  privateKey : String
  rpc : String
  primitiveFile : String
  schema : String
deriving DecidableEq, Repr

/-- Lines 40 to 76 of `primitive.go`: the part of `RunE` that follows the loading of
the CSV file. -/
def primitiveResolve (env : Env) (client : Client) (signer : Signer) (schema : Schema)
    (log : List Event) (data : List PrimitiveStreamData) (schemas : List String) :
    Outcome Unit × List Event :=
  let allSchemas0 := data.foldl (fun acc d => acc ++ [d.StreamID]) []
  if schemas.length > 0 ∧ (contains allSchemas0 schemas).1 = false then
    (.error ("schema " ++ (contains allSchemas0 schemas).2 ++
      " not found in primitive CSV file"), log)
  else
    let allSchemas := if schemas.length > 0 then schemas else allSchemas0
    let log1 := log ++ [.listDatabases (env.Identity signer)]
    match client.ListDatabases log (env.Identity signer) with
    | .error e => (.error e, log1)
    | .ok deployedSchemas =>
      let deployedSchemaList := deployedSchemas.foldl (fun acc s => acc ++ [s.Name]) []
      if (contains deployedSchemaList allSchemas).1 = false then
        (.error ("schema " ++ (contains deployedSchemaList allSchemas).2 ++ " not deployed"),
          log1)
      else
        match primitiveLoop client { schema := schema, log := log1 } allSchemas with
        | (some err, st) => (.error err, st.log)
        | (none, st) => (.ok (), st.log)

/-- The `RunE` function of `primitiveCmd`.  The call to `setupMigration` passes the
flags in the order written in the source: `privateKey`, `rpc`, `schema`. -/
def primitiveCmd (env : Env) (flags : PrimitiveFlags) : Outcome Unit × List Event :=
  match setupMigration env [] flags.privateKey flags.rpc flags.schema with
  | (.error e, log) => (.error e, log)
  | (.ok (client, signer, schema), log) =>
    match readPrimitiveCSV env flags.primitiveFile with
    | .error e => (.error e, log)
    | .panic m => (.panic m, log)
    | .ok data => primitiveResolve env client signer schema log data flags.schemas

/-! ## `composed.go` -/

/-- The struct `TaxonomyData`. -/
structure TaxonomyData where
  ParentOf : String
  Weight : Decimal
  StreamID : String
deriving DecidableEq, Repr

/-- The struct `child`. -/
structure child where
  ID : String
  Weight : Decimal
deriving DecidableEq, Repr

/-- The struct `normalizedTaxonomyData`. -/
structure normalizedTaxonomyData where
  StreamID : String
  Children : List child
deriving DecidableEq, Repr

/-- The body of the record loop of `readTaxonomyCSV`. -/
def taxonomyRecord (env : Env) (record : List String) : Outcome TaxonomyData :=
  match index record 1 with
  | .panic m => .panic m
  | .error e => .error e
  | .ok f1 =>
    match env.NewFromString f1 with
    | .error e => .error ("error parsing weight: " ++ e)
    | .ok dec =>
      match index record 0 with
      | .panic m => .panic m
      | .error e => .error e
      | .ok f0 =>
        match index record 3 with
        | .panic m => .panic m
        | .error e => .error e
        | .ok f3 => .ok { ParentOf := f0, Weight := dec, StreamID := f3 }

/-- The record loop of `readTaxonomyCSV`. -/
def taxonomyRecords (env : Env) :
    List (List String) → List TaxonomyData → Outcome (List TaxonomyData)
  | [], data => .ok data
  | record :: rest, data =>
    match taxonomyRecord env record with
    | .panic m => .panic m
    | .error e => .error e
    | .ok d => taxonomyRecords env rest (data ++ [d])

/-- The function `readTaxonomyCSV(filePath)`. -/
def readTaxonomyCSV (env : Env) (filePath : String) : Outcome (List TaxonomyData) :=
  match readRecords env filePath with
  | .error e => .error e
  | .ok records => taxonomyRecords env records []

/-- The body of the first loop of `normalizeTaxonomyData`.  The struct read from the
map into `v` is a copy, and the source never stores `v` back, so the appended child
does not reach the map. -/
def normalizeStep (normalizedSet : GoMap normalizedTaxonomyData) (d : TaxonomyData) :
    GoMap normalizedTaxonomyData :=
  let normalizedSet1 :=
    if (normalizedSet.get d.ParentOf).isNone then
      normalizedSet.set d.ParentOf { StreamID := d.StreamID, Children := [] }
    else
      normalizedSet
  let v : normalizedTaxonomyData :=
    (normalizedSet1.get d.ParentOf).getD { StreamID := "", Children := [] }
  let _v : normalizedTaxonomyData :=
    { v with Children := v.Children ++ [{ ID := d.StreamID, Weight := d.Weight }] }
  normalizedSet1

/-- The function `normalizeTaxonomyData(data)`; `range` is the order in which the
second loop visits the map. -/
def normalizeTaxonomyData
    (range : GoMap normalizedTaxonomyData → List (String × normalizedTaxonomyData))
    (data : List TaxonomyData) : List normalizedTaxonomyData :=
  let normalizedSet := data.foldl normalizeStep []
  (range normalizedSet).foldl (fun normalizedData kv => normalizedData ++ [kv.2]) []

/-- The function `removeUnnecessaryTaxonomyData(data, streamIDs)`. -/
def removeUnnecessaryTaxonomyData (data : List normalizedTaxonomyData)
    (streamIDs : List String) : List normalizedTaxonomyData :=
  let set := streamIDs.foldl StringSet.set []
  data.foldl (fun newData d => if set.has d.StreamID then newData ++ [d] else newData) []

/-- The function `migrateComposed(ctx, client, schema, streamID, children)`; the
children are received and not used. -/
def migrateComposed (client : Client) (st : RunState) (streamID : String)
    (_children : List child) : Option String × RunState :=
  match client.DropDatabase st.log streamID with
  | some err => (some err, { st with log := st.log ++ [.dropDatabase streamID] })
  | none =>
    let log1 := st.log ++ [.dropDatabase streamID]
    let schema1 : Schema := { st.schema with Name := streamID }
    match client.DeployDatabase log1 schema1 with
    | some err => (some err, { schema := schema1, log := log1 ++ [.deployDatabase schema1] })
    | none => (none, { schema := schema1, log := log1 ++ [.deployDatabase schema1] })

/-- The loop `for _, d := range toMigration` of `composedCmd`. -/
def composedLoop (client : Client) (st : RunState) :
    List normalizedTaxonomyData → Option String × RunState
  | [] => (none, st)
  | d :: rest =>
    match migrateComposed client st d.StreamID d.Children with
    | (some err, st1) => (some err, st1)
    | (none, st1) => composedLoop client st1 rest

/-- The flags of the `composed` command. -/
structure ComposedFlags where
  schemas : List String
  privateKey : String
  rpc : String
  taxonomyFile : String
  schema : String
deriving DecidableEq, Repr

/-- Lines 38 to 72 of `composed.go`: the part of `RunE` that follows the loading of
the CSV file. -/
def composedResolve (env : Env) (client : Client) (signer : Signer) (schema : Schema)
    (log : List Event) (data : List TaxonomyData) (schemas : List String) :
    Outcome Unit × List Event :=
  let allSchemas0 := data.foldl (fun acc d => acc ++ [d.StreamID]) []
  if schemas.length > 0 ∧ (contains allSchemas0 schemas).1 = false then
    (.error ("schema " ++ (contains allSchemas0 schemas).2 ++
      " not found in taxonomy CSV file"), log)
  else
    let allSchemas := if schemas.length > 0 then schemas else allSchemas0
    let log1 := log ++ [.listDatabases (env.Identity signer)]
    match client.ListDatabases log (env.Identity signer) with
    | .error e => (.error e, log1)
    | .ok deployedSchemas =>
      let deployedSchemaList := deployedSchemas.foldl (fun acc s => acc ++ [s.Name]) []
      if (contains deployedSchemaList allSchemas).1 = false then
        (.error ("schema " ++ (contains deployedSchemaList allSchemas).2 ++ " not deployed"),
          log1)
      else
        let toMigration :=
          removeUnnecessaryTaxonomyData (normalizeTaxonomyData env.MapRange data) allSchemas
        match composedLoop client { schema := schema, log := log1 } toMigration with
        | (some err, st) => (.error err, st.log)
        | (none, st) => (.ok (), st.log)

/-- The `RunE` function of `composedCmd`.  The call to `setupMigration` passes the
flags in the order written in the source: `privateKey`, `rpc`, `schema`. -/
def composedCmd (env : Env) (flags : ComposedFlags) : Outcome Unit × List Event :=
  match setupMigration env [] flags.privateKey flags.rpc flags.schema with
  | (.error e, log) => (.error e, log)
  | (.ok (client, signer, schema), log) =>
    match readTaxonomyCSV env flags.taxonomyFile with
    | .error e => (.error e, log)
    | .panic m => (.panic m, log)
    | .ok data => composedResolve env client signer schema log data flags.schemas

/-! ## The executor loop seen from outside -/

/-- The two calls one stream goes through: the drop of the stream, then the deploy
of the template renamed to the stream. -/
def streamCalls (schema : Schema) (s : String) : List Event :=
  [.dropDatabase s, .deployDatabase { schema with Name := s }]

/-- The calls a run over `ss` makes when nothing fails. -/
def plan (schema : Schema) : List String → List Event
  | [] => []
  | s :: rest => streamCalls schema s ++ plan schema rest

/-- The answer of the remote client to one drop or deploy call, given the trace of
the calls made before it: `none` for success, `some err` for a failure. -/
def Client.answer (client : Client) (hist : List Event) : Event → Option String
  | .dropDatabase s => client.DropDatabase hist s
  | .deployDatabase schema => client.DeployDatabase hist schema
  | _ => none

/-- The answer of the remote client to the `k`-th call of the plan for `ss`, made
after the calls before it in the plan; `none` also when the plan has no `k`-th call. -/
def planAnswer (client : Client) (st : RunState) (ss : List String) (k : Nat) :
    Option String :=
  ((plan st.schema ss)[k]?).bind (client.answer (st.log ++ (plan st.schema ss).take k))

/-! ## A concrete environment -/

/-- A remote client that lists the streams named in `deployed`, accepts every drop,
and rejects the deploy of the stream called `failing`. -/
def demoClient (deployed : List String) (failing : String) : Client :=
  { ListDatabases := fun _ owner => .ok (deployed.map (fun n => { Name := n, Owner := owner }))
    DropDatabase := fun _ _ => none
    DeployDatabase := fun _ schema => if schema.Name = failing then some "deploy rejected" else none }

/-- The records of the files of the concrete environment, header included. -/
def demoFile (path : String) : List (List String) :=
  if path = "primitive.csv" then
    [["stream_id", "source_type", "source_id", "update_frequency"],
     ["s1", "api", "id1", "60"],
     ["s2", "api", "id2", "60"]]
  else if path = "taxonomy.csv" then
    [["parent_of", "weight", "table", "stream_id"],
     ["parentA", "0.5", "t", "childX"],
     ["parentA", "0.5", "t", "childY"]]
  else if path = "primitive3.csv" then
    [["stream_id", "source_type", "source_id"],
     ["s1", "api", "id1"]]
  else
    [["parent_of", "weight", "stream_id"],
     ["parentA", "0.5", "childX"]]

/-- An environment in which every key decodes to itself, the connection succeeds and
gives `demoClient`, the files are those of `demoFile`, the only decimal is `0.5`, the
only integer is `60`, and maps are iterated in insertion order. -/
def demoEnv (deployed : List String) (failing : String) : Env :=
  { Secp256k1PrivateKeyFromHex := fun k => .ok k
    Identity := fun signer => signer.Key
    NewClient := fun _ _ => .ok (demoClient deployed failing)
    ReadFile := fun _ => .ok "database template;"
    Parse := fun bytes => .ok { Name := "", Body := bytes }
    Open := fun path => .ok (demoFile path)
    NewFromString := fun str =>
      if str = "0.5" then .ok { Unscaled := 5, Scale := 1 } else .error "invalid decimal"
    Atoi := fun str => if str = "60" then .ok 60 else .error "invalid syntax"
    MapRange := fun m => m }

/-- The taxonomy records of scenario A: two children of `parentA`, each of weight `0.5`. -/
def scenarioA : List TaxonomyData :=
  [{ ParentOf := "parentA", Weight := { Unscaled := 5, Scale := 1 }, StreamID := "childX" },
   { ParentOf := "parentA", Weight := { Unscaled := 5, Scale := 1 }, StreamID := "childY" }]

/-- The primitive records of the file `primitive.csv` of the concrete environment. -/
def demoPrimitive : List PrimitiveStreamData :=
  [{ StreamID := "s1", SourceType := "api", SourceID := "id1", UpdateFrequency := 60 },
   { StreamID := "s2", SourceType := "api", SourceID := "id2", UpdateFrequency := 60 }]

/-- The command line `primitive -k K -r URL -f primitive.csv -c schema.kf -s schemas`. -/
def demoPrimitiveFlags (schemas : List String) : PrimitiveFlags :=
  { schemas := schemas, privateKey := "K", rpc := "URL",
    primitiveFile := "primitive.csv", schema := "schema.kf" }

/-- The command line `composed -k K -r URL -f taxonomy.csv -c schema.kf -s schemas`. -/
def demoComposedFlags (schemas : List String) : ComposedFlags :=
  { schemas := schemas, privateKey := "K", rpc := "URL",
    taxonomyFile := "taxonomy.csv", schema := "schema.kf" }

/-- Three normalized entries `a`, `b`, `c` without children. -/
def demoEntries : List normalizedTaxonomyData :=
  [{ StreamID := "a", Children := [] }, { StreamID := "b", Children := [] },
   { StreamID := "c", Children := [] }]

/-- The state in which the executor loops of the witnesses start. -/
def demoState : RunState :=
  { schema := { Name := "", Body := "t" }, log := [] }

/-! ## Lemmas about maps and `contains` -/

theorem StringSet.mem_set (m : StringSet) (k x : String) :
    x ∈ m.set k ↔ x ∈ m ∨ x = k := by
  unfold StringSet.set
  split
  · constructor
    · intro h; exact Or.inl h
    · rintro (h | h)
      · exact h
      · subst h; assumption
  · simp

theorem mem_foldl_set (a : List String) (m : StringSet) (x : String) :
    x ∈ a.foldl StringSet.set m ↔ x ∈ m ∨ x ∈ a := by
  induction a generalizing m with
  | nil => simp
  | cons y ys ih =>
    simp only [List.foldl_cons, ih, StringSet.mem_set, List.mem_cons]
    tauto

theorem mem_containsBuild (a : List String) (x : String) :
    x ∈ containsBuild a ↔ x ∈ a := by
  simp [containsBuild, mem_foldl_set]

theorem containsCheck_true_iff (aMap : StringSet) (b : List String) :
    containsCheck aMap b = (true, "") ↔ ∀ x ∈ b, x ∈ aMap := by
  induction b with
  | nil => simp [containsCheck]
  | cons v rest ih =>
    by_cases hv : v ∈ aMap
    · simp [containsCheck, StringSet.has, hv, ih]
    · simp [containsCheck, StringSet.has, hv]

theorem containsCheck_fst (aMap : StringSet) (b : List String) :
    (containsCheck aMap b).1 = decide (∀ x ∈ b, x ∈ aMap) := by
  induction b with
  | nil => simp [containsCheck]
  | cons v rest ih =>
    by_cases hv : v ∈ aMap
    · simp [containsCheck, StringSet.has, hv, ih]
    · simp [containsCheck, StringSet.has, hv]

theorem containsCheck_false (aMap : StringSet) (b : List String)
    (h : ¬ ∀ x ∈ b, x ∈ aMap) :
    ∃ m, b.find? (fun v => decide (v ∉ aMap)) = some m ∧
      containsCheck aMap b = (false, m) := by
  induction b with
  | nil => simp at h
  | cons v rest ih =>
    by_cases hv : v ∈ aMap
    · have h' : ¬ ∀ x ∈ rest, x ∈ aMap := by
        intro hall
        apply h
        intro x hx
        rcases List.mem_cons.1 hx with rfl | hx
        · exact hv
        · exact hall x hx
      obtain ⟨m, hm, hc⟩ := ih h'
      exact ⟨m, by simpa [List.find?, hv] using hm, by simp [containsCheck, StringSet.has, hv, hc]⟩
    · exact ⟨v, by simp [List.find?, hv], by simp [containsCheck, StringSet.has, hv]⟩

theorem contains_true_iff (a b : List String) :
    contains a b = (true, "") ↔ ∀ x ∈ b, x ∈ a := by
  simp [contains, containsCheck_true_iff, mem_containsBuild]

theorem contains_fst (a b : List String) :
    (contains a b).1 = decide (∀ x ∈ b, x ∈ a) := by
  simp [contains, containsCheck_fst, mem_containsBuild]

theorem find_congr_mem (a a' b : List String) (h : ∀ x, x ∈ a ↔ x ∈ a') :
    b.find? (fun v => decide (v ∉ a)) = b.find? (fun v => decide (v ∉ a')) := by
  have : (fun v => decide (v ∉ a)) = (fun v => decide (v ∉ a')) := by
    funext v; simp [h v]
  rw [this]

theorem contains_false (a b : List String) (h : ¬ ∀ x ∈ b, x ∈ a) :
    ∃ m, firstMissing a b = some m ∧ contains a b = (false, m) := by
  have h' : ¬ ∀ x ∈ b, x ∈ containsBuild a := by
    simpa [mem_containsBuild] using h
  obtain ⟨m, hm, hc⟩ := containsCheck_false (containsBuild a) b h'
  refine ⟨m, ?_, hc⟩
  rw [firstMissing, find_congr_mem a (containsBuild a) b (fun x => (mem_containsBuild a x).symm)]
  exact hm

theorem contains_miss (a b : List String) (h : ¬ ∀ x ∈ b, x ∈ a) :
    ∃ pre m post, b = pre ++ m :: post ∧ (∀ x ∈ pre, x ∈ a) ∧ m ∉ a ∧
      contains a b = (false, m) := by
  obtain ⟨m, hm, hc⟩ := contains_false a b h
  rw [firstMissing, List.find?_eq_some] at hm
  obtain ⟨hma, pre, post, hb', hpre⟩ := hm
  refine ⟨pre, m, post, hb', ?_, by simpa using hma, hc⟩
  intro x hx
  simpa using hpre x hx

/-! ## Lemmas about the append loops -/

theorem foldl_append_map {α β : Type} (f : α → β) (l : List α) (init : List β) :
    l.foldl (fun acc d => acc ++ [f d]) init = init ++ l.map f := by
  induction l generalizing init with
  | nil => simp
  | cons x xs ih => simp [ih]

theorem foldl_append_filter {α : Type} (p : α → Bool) (l : List α) (init : List α) :
    l.foldl (fun acc d => if p d then acc ++ [d] else acc) init = init ++ l.filter p := by
  induction l generalizing init with
  | nil => simp
  | cons x xs ih =>
    by_cases hx : p x
    · simp [ih, hx]
    · simp [ih, hx]

theorem removeUnnecessary_eq_filter (data : List normalizedTaxonomyData)
    (streamIDs : List String) :
    removeUnnecessaryTaxonomyData data streamIDs =
      data.filter (fun d => decide (d.StreamID ∈ streamIDs)) := by
  unfold removeUnnecessaryTaxonomyData
  simp only []
  rw [foldl_append_filter (fun d => StringSet.has (List.foldl StringSet.set [] streamIDs)
    d.StreamID) data []]
  simp only [List.nil_append]
  apply List.filter_congr
  intro d _
  simp [StringSet.has, mem_foldl_set]

/-! ## Lemmas about `normalizeTaxonomyData` -/

theorem GoMap.get_isNone_iff {V : Type} (m : GoMap V) (k : String) :
    (GoMap.get m k).isNone = true ↔ k ∉ m.map Prod.fst := by
  induction m with
  | nil => simp [GoMap.get]
  | cons kv rest ih =>
    obtain ⟨k', v⟩ := kv
    by_cases h : k' = k
    · simp [GoMap.get, h]
    · have h' : ¬ k = k' := fun e => h e.symm
      simp [GoMap.get, h, h', ih]

theorem GoMap.keys_set_of_not_mem {V : Type} (m : GoMap V) (k : String) (v : V)
    (h : k ∉ m.map Prod.fst) :
    (GoMap.set m k v).map Prod.fst = m.map Prod.fst ++ [k] := by
  induction m with
  | nil => simp [GoMap.set]
  | cons kv rest ih =>
    obtain ⟨k', v'⟩ := kv
    have hk : ¬ k' = k := by
      intro e; apply h; simp [e]
    have hr : k ∉ rest.map Prod.fst := by
      intro e; apply h; simp only [List.map_cons, List.mem_cons]; exact Or.inr e
    simp [GoMap.set, hk, ih hr]

theorem GoMap.set_of_not_mem {V : Type} (m : GoMap V) (k : String) (v : V)
    (h : k ∉ m.map Prod.fst) :
    GoMap.set m k v = m ++ [(k, v)] := by
  induction m with
  | nil => simp [GoMap.set]
  | cons kv rest ih =>
    obtain ⟨k', v'⟩ := kv
    have hk : ¬ k' = k := by
      intro e; apply h; simp [e]
    have hr : k ∉ rest.map Prod.fst := by
      intro e; apply h; simp only [List.map_cons, List.mem_cons]; exact Or.inr e
    simp [GoMap.set, hk, ih hr]

theorem normalizeStep_eq (m : GoMap normalizedTaxonomyData) (d : TaxonomyData) :
    normalizeStep m d =
      if d.ParentOf ∈ m.map Prod.fst then m
      else m ++ [(d.ParentOf, { StreamID := d.StreamID, Children := [] })] := by
  unfold normalizeStep
  by_cases h : d.ParentOf ∈ m.map Prod.fst
  · have hn : ¬ (GoMap.get m d.ParentOf).isNone = true := by
      rw [GoMap.get_isNone_iff]; exact fun hc => hc h
    simp only [hn, h, if_true, if_false]
    simp
  · have hn : (GoMap.get m d.ParentOf).isNone = true := by
      rw [GoMap.get_isNone_iff]; exact h
    simp only [hn, h, if_true, if_false]
    rw [GoMap.set_of_not_mem m _ _ h]

theorem normalizeStep_keys (m : GoMap normalizedTaxonomyData) (d : TaxonomyData) :
    (normalizeStep m d).map Prod.fst = StringSet.set (m.map Prod.fst) d.ParentOf := by
  rw [normalizeStep_eq, StringSet.set]
  split <;> simp

theorem normalizeFold_keys (data : List TaxonomyData) (m : GoMap normalizedTaxonomyData) :
    (data.foldl normalizeStep m).map Prod.fst =
      (data.map (fun d => d.ParentOf)).foldl StringSet.set (m.map Prod.fst) := by
  induction data generalizing m with
  | nil => simp
  | cons d ds ih => simp [ih, normalizeStep_keys]

theorem StringSet.nodup_set (m : StringSet) (k : String) (h : m.Nodup) :
    (m.set k).Nodup := by
  unfold StringSet.set
  split
  · exact h
  · rename_i hk
    rw [List.nodup_append]
    refine ⟨h, List.nodup_singleton k, ?_⟩
    intro x hx hx'
    simp only [List.mem_singleton] at hx'
    subst hx'
    exact hk hx

theorem nodup_foldl_set (a : List String) (m : StringSet) (h : m.Nodup) :
    (a.foldl StringSet.set m).Nodup := by
  induction a generalizing m with
  | nil => simpa using h
  | cons y ys ih => exact ih _ (StringSet.nodup_set m y h)

theorem card_foldl_set (a : List String) :
    (a.foldl StringSet.set []).length = a.toFinset.card := by
  have hn := nodup_foldl_set a [] List.nodup_nil
  rw [← List.toFinset_card_of_nodup hn]
  congr 1
  ext x
  simp [mem_foldl_set]

theorem normalizeSet_length (data : List TaxonomyData) :
    (data.foldl normalizeStep []).length = (data.map (fun d => d.ParentOf)).toFinset.card := by
  have h := normalizeFold_keys data []
  have hl := congrArg List.length h
  simp only [List.length_map, List.map_nil] at hl
  rw [hl, card_foldl_set]

theorem normalize_eq_map
    (range : GoMap normalizedTaxonomyData → List (String × normalizedTaxonomyData))
    (data : List TaxonomyData) :
    normalizeTaxonomyData range data = (range (data.foldl normalizeStep [])).map Prod.snd := by
  unfold normalizeTaxonomyData
  simp only []
  rw [foldl_append_map]
  simp

/-- Every value stored by the first loop of `normalizeTaxonomyData` has no children. -/
theorem normalizeFold_children (data : List TaxonomyData) (m : GoMap normalizedTaxonomyData)
    (hm : ∀ kv ∈ m, kv.2.Children = []) :
    ∀ kv ∈ data.foldl normalizeStep m, kv.2.Children = [] := by
  induction data generalizing m with
  | nil => simpa using hm
  | cons d ds ih =>
    rw [List.foldl_cons]
    apply ih
    rw [normalizeStep_eq]
    split
    · exact hm
    · intro kv hkv
      rcases List.mem_append.1 hkv with h | h
      · exact hm kv h
      · simp only [List.mem_singleton] at h
        subst h
        rfl

/-- Whatever the input and the iteration order, every entry returned by
`normalizeTaxonomyData` has an empty `Children` list. -/
theorem normalize_children_nil
    (range : GoMap normalizedTaxonomyData → List (String × normalizedTaxonomyData))
    (hrange : ∀ m, (range m).Perm m) (data : List TaxonomyData) :
    ∀ e ∈ normalizeTaxonomyData range data, e.Children = [] := by
  intro e he
  rw [normalize_eq_map, List.mem_map] at he
  obtain ⟨kv, hkv, rfl⟩ := he
  exact normalizeFold_children data [] (by simp) kv ((hrange _).mem_iff.1 hkv)

/-! ## Lemmas about the executor loops -/

theorem plan_rename (schema : Schema) (n : String) (ss : List String) :
    plan { schema with Name := n } ss = plan schema ss := by
  induction ss with
  | nil => rfl
  | cons s rest ih => simp [plan, streamCalls, ih]

theorem plan_length (schema : Schema) (ss : List String) :
    (plan schema ss).length = 2 * ss.length := by
  induction ss with
  | nil => rfl
  | cons s rest ih => simp [plan, streamCalls, ih]; omega

theorem planAnswer_zero (client : Client) (st : RunState) (s : String) (rest : List String) :
    planAnswer client st (s :: rest) 0 = client.DropDatabase st.log s := by
  simp [planAnswer, plan, streamCalls, Client.answer]

theorem planAnswer_one (client : Client) (st : RunState) (s : String) (rest : List String) :
    planAnswer client st (s :: rest) 1 =
      client.DeployDatabase (st.log ++ [.dropDatabase s]) { st.schema with Name := s } := by
  simp [planAnswer, plan, streamCalls, Client.answer]

theorem planAnswer_shift (client : Client) (st : RunState) (s : String) (rest : List String)
    (k : Nat) :
    planAnswer client st (s :: rest) (k + 2) =
      planAnswer client
        { schema := { st.schema with Name := s },
          log := st.log ++ [.dropDatabase s] ++ [.deployDatabase { st.schema with Name := s }] }
        rest k := by
  simp [planAnswer, plan, streamCalls, plan_rename]

theorem primitiveLoop_ok (client : Client) (ss : List String) :
    ∀ st : RunState, (∀ k, k < 2 * ss.length → planAnswer client st ss k = none) →
      (primitiveLoop client st ss).1 = none ∧
        (primitiveLoop client st ss).2.log = st.log ++ plan st.schema ss := by
  induction ss with
  | nil => intro st _; simp [primitiveLoop, plan]
  | cons s rest ih =>
    intro st h
    have h0 := h 0 (by simp)
    have h1 := h 1 (by simp; omega)
    rw [planAnswer_zero] at h0
    rw [planAnswer_one] at h1
    have hrest := ih
      { schema := { st.schema with Name := s },
        log := st.log ++ [.dropDatabase s] ++ [.deployDatabase { st.schema with Name := s }] }
      (by
        intro k hk
        rw [← planAnswer_shift]
        apply h
        simp only [List.length_cons]
        omega)
    simp only [primitiveLoop, migratePrimitive, h0, h1]
    rw [hrest.1, hrest.2]
    simp [plan, streamCalls, plan_rename]

theorem primitiveLoop_fail (client : Client) (ss : List String) :
    ∀ (st : RunState) (n : Nat) (e : String),
      (∀ k, k < n → planAnswer client st ss k = none) →
      planAnswer client st ss n = some e →
      (primitiveLoop client st ss).1 = some e ∧
        (primitiveLoop client st ss).2.log = st.log ++ (plan st.schema ss).take (n + 1) := by
  induction ss with
  | nil => intro st n e _ hn; simp [planAnswer, plan] at hn
  | cons s rest ih =>
    intro st n e h hn
    match n, h, hn with
    | 0, _, hn =>
      rw [planAnswer_zero] at hn
      simp [primitiveLoop, migratePrimitive, hn, plan, streamCalls]
    | 1, h, hn =>
      have h0 := h 0 (by omega)
      rw [planAnswer_zero] at h0
      rw [planAnswer_one] at hn
      simp [primitiveLoop, migratePrimitive, h0, hn, plan, streamCalls]
    | m + 2, h, hn =>
      have h0 := h 0 (by omega)
      have h1 := h 1 (by omega)
      rw [planAnswer_zero] at h0
      rw [planAnswer_one] at h1
      rw [planAnswer_shift] at hn
      have hrest := ih
        { schema := { st.schema with Name := s },
          log := st.log ++ [.dropDatabase s] ++ [.deployDatabase { st.schema with Name := s }] }
        m e
        (by
          intro k hk
          rw [← planAnswer_shift]
          apply h
          omega)
        hn
      simp only [primitiveLoop, migratePrimitive, h0, h1]
      rw [hrest.1, hrest.2]
      simp [plan, streamCalls, plan_rename]

theorem plan_take (schema : Schema) (ss : List String) :
    ∀ (i j : Nat) (s : String), ss[i]? = some s → j < 2 →
      (plan schema ss).take (2 * i + j + 1) =
        plan schema (ss.take i) ++ (streamCalls schema s).take (j + 1) := by
  induction ss with
  | nil => intro i j s hs; simp at hs
  | cons x rest ih =>
    intro i j s hs hj
    match i, hs with
    | 0, hs =>
      simp only [List.getElem?_cons_zero, Option.some.injEq] at hs
      subst hs
      have : j = 0 ∨ j = 1 := by omega
      rcases this with rfl | rfl <;> simp [plan, streamCalls]
    | i + 1, hs =>
      simp only [List.getElem?_cons_succ] at hs
      have := ih i j s hs hj
      have e : 2 * (i + 1) + j + 1 = (2 * i + j + 1) + 2 := by omega
      rw [e]
      simp only [plan, List.take_succ_cons, streamCalls, List.cons_append, List.nil_append]
      rw [this]
      simp [streamCalls]

theorem composedLoop_eq (client : Client) (ds : List normalizedTaxonomyData) :
    ∀ st : RunState,
      composedLoop client st ds = primitiveLoop client st (ds.map (fun d => d.StreamID)) := by
  induction ds with
  | nil => intro st; rfl
  | cons d rest ih =>
    intro st
    simp only [composedLoop, primitiveLoop, List.map_cons, migrateComposed, migratePrimitive]
    cases client.DropDatabase st.log d.StreamID with
    | some err => rfl
    | none =>
      simp only []
      cases client.DeployDatabase (st.log ++ [.dropDatabase d.StreamID])
          { st.schema with Name := d.StreamID } with
      | some err => rfl
      | none => simp only [ih]

/-! ## Lemmas about the commands -/

theorem setupMigration_log (env : Env) (rpc privateKey schemaPath : String) :
    ∀ ev ∈ (setupMigration env [] rpc privateKey schemaPath).2, ev.isRequest = false := by
  unfold setupMigration makeSigner
  cases env.Secp256k1PrivateKeyFromHex privateKey with
  | error e => simp [Event.isRequest]
  | ok key =>
    simp only []
    cases env.NewClient rpc { Key := key } with
    | error e => simp [Event.isRequest]
    | ok cl =>
      simp only []
      cases readInSchema env schemaPath with
      | error e => simp [Event.isRequest]
      | ok schema => simp [Event.isRequest]

theorem isDropOrDeploy_of_not_isRequest (ev : Event) (h : ev.isRequest = false) :
    ev.isDropOrDeploy = false := by
  cases ev <;> simp_all [Event.isRequest, Event.isDropOrDeploy]

theorem primitiveResolve_source_miss (env : Env) (client : Client) (signer : Signer)
    (schema : Schema) (log : List Event) (data : List PrimitiveStreamData)
    (schemas : List String) (m : String) (hne : schemas ≠ [])
    (hc : contains (data.map (fun d => d.StreamID)) schemas = (false, m)) :
    primitiveResolve env client signer schema log data schemas =
      (.error ("schema " ++ m ++ " not found in primitive CSV file"), log) := by
  have hpos : schemas.length > 0 := List.length_pos.2 hne
  unfold primitiveResolve
  simp only [foldl_append_map, List.nil_append, hc, hpos, and_self, if_true]

theorem composedResolve_source_miss (env : Env) (client : Client) (signer : Signer)
    (schema : Schema) (log : List Event) (data : List TaxonomyData)
    (schemas : List String) (m : String) (hne : schemas ≠ [])
    (hc : contains (data.map (fun d => d.StreamID)) schemas = (false, m)) :
    composedResolve env client signer schema log data schemas =
      (.error ("schema " ++ m ++ " not found in taxonomy CSV file"), log) := by
  have hpos : schemas.length > 0 := List.length_pos.2 hne
  unfold composedResolve
  simp only [foldl_append_map, List.nil_append, hc, hpos, and_self, if_true]

theorem source_check_passes (a schemas : List String)
    (hsrc : schemas = [] ∨ ∀ x ∈ schemas, x ∈ a) :
    ¬ (schemas.length > 0 ∧ (contains a schemas).1 = false) := by
  rintro ⟨hpos, hf⟩
  rcases hsrc with h | h
  · subst h; simp at hpos
  · rw [(contains_true_iff a schemas).2 h] at hf
    simp at hf

theorem working_set_eq (a schemas : List String) :
    (if schemas.length > 0 then schemas else a) = (if schemas = [] then a else schemas) := by
  cases schemas <;> simp

theorem primitiveResolve_deploy_miss (env : Env) (client : Client) (signer : Signer)
    (schema : Schema) (log : List Event) (data : List PrimitiveStreamData)
    (schemas : List String) (deployed : List DatasetIdentifier) (m : String)
    (hsrc : schemas = [] ∨ ∀ x ∈ schemas, x ∈ data.map (fun d => d.StreamID))
    (hlist : client.ListDatabases log (env.Identity signer) = .ok deployed)
    (hc : contains (deployed.map (fun s => s.Name))
      (if schemas = [] then data.map (fun d => d.StreamID) else schemas) = (false, m)) :
    primitiveResolve env client signer schema log data schemas =
      (.error ("schema " ++ m ++ " not deployed"),
        log ++ [.listDatabases (env.Identity signer)]) := by
  have hpass := source_check_passes _ schemas hsrc
  unfold primitiveResolve
  simp only [foldl_append_map, List.nil_append, hpass, if_false, hlist, working_set_eq, hc,
    if_true]

theorem composedResolve_deploy_miss (env : Env) (client : Client) (signer : Signer)
    (schema : Schema) (log : List Event) (data : List TaxonomyData)
    (schemas : List String) (deployed : List DatasetIdentifier) (m : String)
    (hsrc : schemas = [] ∨ ∀ x ∈ schemas, x ∈ data.map (fun d => d.StreamID))
    (hlist : client.ListDatabases log (env.Identity signer) = .ok deployed)
    (hc : contains (deployed.map (fun s => s.Name))
      (if schemas = [] then data.map (fun d => d.StreamID) else schemas) = (false, m)) :
    composedResolve env client signer schema log data schemas =
      (.error ("schema " ++ m ++ " not deployed"),
        log ++ [.listDatabases (env.Identity signer)]) := by
  have hpass := source_check_passes _ schemas hsrc
  unfold composedResolve
  simp only [foldl_append_map, List.nil_append, hpass, if_false, hlist, working_set_eq, hc,
    if_true]

theorem primitiveCmd_loaded (env : Env) (flags : PrimitiveFlags) (client : Client)
    (signer : Signer) (schema : Schema) (log : List Event) (data : List PrimitiveStreamData)
    (hsetup : setupMigration env [] flags.privateKey flags.rpc flags.schema =
      (.ok (client, signer, schema), log))
    (hread : readPrimitiveCSV env flags.primitiveFile = .ok data) :
    primitiveCmd env flags = primitiveResolve env client signer schema log data flags.schemas := by
  unfold primitiveCmd
  rw [hsetup]
  simp only [hread]

theorem composedCmd_loaded (env : Env) (flags : ComposedFlags) (client : Client)
    (signer : Signer) (schema : Schema) (log : List Event) (data : List TaxonomyData)
    (hsetup : setupMigration env [] flags.privateKey flags.rpc flags.schema =
      (.ok (client, signer, schema), log))
    (hread : readTaxonomyCSV env flags.taxonomyFile = .ok data) :
    composedCmd env flags = composedResolve env client signer schema log data flags.schemas := by
  unfold composedCmd
  rw [hsetup]
  simp only [hread]

theorem setup_log_of_eq (env : Env) (rpc privateKey schemaPath : String)
    (r : Except String (Client × Signer × Schema)) (log : List Event)
    (h : setupMigration env [] rpc privateKey schemaPath = (r, log)) :
    ∀ ev ∈ log, ev.isRequest = false := by
  have := setupMigration_log env rpc privateKey schemaPath
  rw [h] at this
  exact this

/-! ## Which flag reaches which collaborator -/

/-- The function `setupMigration` itself hands its `privateKey` parameter to
`makeSigner` and its `rpc` parameter to `client.NewClient`. -/
theorem setupMigration_calls (env : Env) (rpc privateKey schemaPath : String) :
    (setupMigration env [] rpc privateKey schemaPath).2 = [.makeSigner privateKey] ∨
    ∃ signer, (setupMigration env [] rpc privateKey schemaPath).2 =
      [.makeSigner privateKey, .newClient rpc signer] := by
  unfold setupMigration makeSigner
  cases env.Secp256k1PrivateKeyFromHex privateKey with
  | error e => exact Or.inl rfl
  | ok key =>
    right
    refine ⟨{ Key := key }, ?_⟩
    simp only []
    cases env.NewClient rpc { Key := key } with
    | error e => rfl
    | ok cl =>
      simp only []
      cases readInSchema env schemaPath with
      | error e => rfl
      | ok schema => rfl

theorem primitiveLoop_log (client : Client) (ss : List String) :
    ∀ st : RunState, ∃ t, (primitiveLoop client st ss).2.log = st.log ++ t := by
  induction ss with
  | nil => intro st; exact ⟨[], by simp [primitiveLoop]⟩
  | cons s rest ih =>
    intro st
    simp only [primitiveLoop, migratePrimitive]
    cases client.DropDatabase st.log s with
    | some err => exact ⟨[.dropDatabase s], rfl⟩
    | none =>
      simp only []
      cases client.DeployDatabase (st.log ++ [.dropDatabase s]) { st.schema with Name := s } with
      | some err =>
        exact ⟨[.dropDatabase s, .deployDatabase { st.schema with Name := s }], by simp⟩
      | none =>
        simp only []
        obtain ⟨t, ht⟩ := ih
          { schema := { st.schema with Name := s },
            log := st.log ++ [.dropDatabase s] ++ [.deployDatabase { st.schema with Name := s }] }
        exact ⟨[.dropDatabase s, .deployDatabase { st.schema with Name := s }] ++ t, by
          rw [ht]; simp⟩

theorem primitiveResolve_log (env : Env) (client : Client) (signer : Signer) (schema : Schema)
    (log : List Event) (data : List PrimitiveStreamData) (schemas : List String) :
    ∃ t, (primitiveResolve env client signer schema log data schemas).2 = log ++ t := by
  unfold primitiveResolve
  simp only []
  by_cases h1 : schemas.length > 0 ∧
      (contains (List.foldl (fun acc d => acc ++ [d.StreamID]) [] data) schemas).1 = false
  · rw [if_pos h1]
    exact ⟨[], by simp⟩
  · rw [if_neg h1]
    cases client.ListDatabases log (env.Identity signer) with
    | error e => exact ⟨[.listDatabases (env.Identity signer)], rfl⟩
    | ok deployedSchemas =>
      simp only []
      generalize (if schemas.length > 0 then schemas
        else List.foldl (fun acc d => acc ++ [d.StreamID]) [] data) = W
      by_cases h2 : (contains (List.foldl (fun acc s => acc ++ [s.Name]) []
          deployedSchemas) W).1 = false
      · rw [if_pos h2]
        exact ⟨[.listDatabases (env.Identity signer)], rfl⟩
      · rw [if_neg h2]
        obtain ⟨t, ht⟩ := primitiveLoop_log client W
          { schema := schema, log := log ++ [.listDatabases (env.Identity signer)] }
        refine ⟨[.listDatabases (env.Identity signer)] ++ t, ?_⟩
        generalize primitiveLoop client
          { schema := schema, log := log ++ [.listDatabases (env.Identity signer)] } W = r at ht
        obtain ⟨o, st1⟩ := r
        cases o <;> simp only [] at ht ⊢ <;> rw [ht, List.append_assoc]

theorem composedResolve_log (env : Env) (client : Client) (signer : Signer) (schema : Schema)
    (log : List Event) (data : List TaxonomyData) (schemas : List String) :
    ∃ t, (composedResolve env client signer schema log data schemas).2 = log ++ t := by
  unfold composedResolve
  simp only []
  by_cases h1 : schemas.length > 0 ∧
      (contains (List.foldl (fun acc d => acc ++ [d.StreamID]) [] data) schemas).1 = false
  · rw [if_pos h1]
    exact ⟨[], by simp⟩
  · rw [if_neg h1]
    cases client.ListDatabases log (env.Identity signer) with
    | error e => exact ⟨[.listDatabases (env.Identity signer)], rfl⟩
    | ok deployedSchemas =>
      simp only []
      generalize (if schemas.length > 0 then schemas
        else List.foldl (fun acc d => acc ++ [d.StreamID]) [] data) = W
      by_cases h2 : (contains (List.foldl (fun acc s => acc ++ [s.Name]) []
          deployedSchemas) W).1 = false
      · rw [if_pos h2]
        exact ⟨[.listDatabases (env.Identity signer)], rfl⟩
      · rw [if_neg h2]
        generalize removeUnnecessaryTaxonomyData (normalizeTaxonomyData env.MapRange data) W = M
        obtain ⟨t, ht⟩ := primitiveLoop_log client (M.map (fun d => d.StreamID))
          { schema := schema, log := log ++ [.listDatabases (env.Identity signer)] }
        rw [← composedLoop_eq] at ht
        refine ⟨[.listDatabases (env.Identity signer)] ++ t, ?_⟩
        generalize composedLoop client
          { schema := schema, log := log ++ [.listDatabases (env.Identity signer)] } M = r at ht
        obtain ⟨o, st1⟩ := r
        cases o <;> simp only [] at ht ⊢ <;> rw [ht, List.append_assoc]

/-- For every environment and every flag values, the trace of the `primitive` command
starts with `makeSigner` applied to the value of `--rpc`, and the next call, if any, is
`client.NewClient` applied to the value of `--private-key`. -/
theorem primitiveCmd_setup_calls (env : Env) (flags : PrimitiveFlags) :
    ∃ rest, (primitiveCmd env flags).2 = .makeSigner flags.rpc :: rest ∧
      (rest = [] ∨ ∃ signer rest2, rest = .newClient flags.privateKey signer :: rest2) := by
  have hs := setupMigration_calls env flags.privateKey flags.rpc flags.schema
  have key : ∃ t, (primitiveCmd env flags).2 =
      (setupMigration env [] flags.privateKey flags.rpc flags.schema).2 ++ t ∧
      ((setupMigration env [] flags.privateKey flags.rpc flags.schema).2 =
        [.makeSigner flags.rpc] → t = []) := by
    unfold primitiveCmd
    rcases hsm : setupMigration env [] flags.privateKey flags.rpc flags.schema with ⟨r, log⟩
    cases r with
    | error e => exact ⟨[], by simp, fun _ => rfl⟩
    | ok v =>
      obtain ⟨client, signer, schema⟩ := v
      have hlog : ∃ sg, log = [.makeSigner flags.rpc, .newClient flags.privateKey sg] := by
        rcases hs with h | ⟨sg, h⟩
        · exfalso
          rw [hsm] at h
          simp only [] at h
          unfold setupMigration makeSigner at hsm
          revert hsm
          cases env.Secp256k1PrivateKeyFromHex flags.rpc with
          | error e => simp
          | ok key =>
            simp only []
            cases env.NewClient flags.privateKey { Key := key } with
            | error e => simp
            | ok cl =>
              simp only []
              cases readInSchema env flags.schema with
              | error e => simp
              | ok schema => intro hsm; simp only [Prod.mk.injEq] at hsm; rw [← hsm.2] at h; simp at h
        · exact ⟨sg, by rw [hsm] at h; exact h⟩
      obtain ⟨sg, hsg⟩ := hlog
      simp only []
      cases readPrimitiveCSV env flags.primitiveFile with
      | error e => exact ⟨[], by simp, fun _ => rfl⟩
      | panic m => exact ⟨[], by simp, fun _ => rfl⟩
      | ok data =>
        simp only []
        obtain ⟨t, ht⟩ := primitiveResolve_log env client signer schema log data flags.schemas
        refine ⟨t, ht, ?_⟩
        intro h
        rw [hsg] at h
        simp at h
  obtain ⟨t, ht, ht0⟩ := key
  rcases hs with h | ⟨sg, h⟩
  · refine ⟨[], ?_, Or.inl rfl⟩
    rw [ht, h, ht0 h]
    rfl
  · refine ⟨.newClient flags.privateKey sg :: t, ?_, Or.inr ⟨sg, t, rfl⟩⟩
    rw [ht, h]
    rfl

/-- For every environment and every flag values, the trace of the `composed` command
starts with `makeSigner` applied to the value of `--rpc`, and the next call, if any, is
`client.NewClient` applied to the value of `--private-key`. -/
theorem composedCmd_setup_calls (env : Env) (flags : ComposedFlags) :
    ∃ rest, (composedCmd env flags).2 = .makeSigner flags.rpc :: rest ∧
      (rest = [] ∨ ∃ signer rest2, rest = .newClient flags.privateKey signer :: rest2) := by
  have hs := setupMigration_calls env flags.privateKey flags.rpc flags.schema
  have key : ∃ t, (composedCmd env flags).2 =
      (setupMigration env [] flags.privateKey flags.rpc flags.schema).2 ++ t ∧
      ((setupMigration env [] flags.privateKey flags.rpc flags.schema).2 =
        [.makeSigner flags.rpc] → t = []) := by
    unfold composedCmd
    rcases hsm : setupMigration env [] flags.privateKey flags.rpc flags.schema with ⟨r, log⟩
    cases r with
    | error e => exact ⟨[], by simp, fun _ => rfl⟩
    | ok v =>
      obtain ⟨client, signer, schema⟩ := v
      have hlog : ∃ sg, log = [.makeSigner flags.rpc, .newClient flags.privateKey sg] := by
        rcases hs with h | ⟨sg, h⟩
        · exfalso
          rw [hsm] at h
          simp only [] at h
          unfold setupMigration makeSigner at hsm
          revert hsm
          cases env.Secp256k1PrivateKeyFromHex flags.rpc with
          | error e => simp
          | ok key =>
            simp only []
            cases env.NewClient flags.privateKey { Key := key } with
            | error e => simp
            | ok cl =>
              simp only []
              cases readInSchema env flags.schema with
              | error e => simp
              | ok schema => intro hsm; simp only [Prod.mk.injEq] at hsm; rw [← hsm.2] at h; simp at h
        · exact ⟨sg, by rw [hsm] at h; exact h⟩
      obtain ⟨sg, hsg⟩ := hlog
      simp only []
      cases readTaxonomyCSV env flags.taxonomyFile with
      | error e => exact ⟨[], by simp, fun _ => rfl⟩
      | panic m => exact ⟨[], by simp, fun _ => rfl⟩
      | ok data =>
        simp only []
        obtain ⟨t, ht⟩ := composedResolve_log env client signer schema log data flags.schemas
        refine ⟨t, ht, ?_⟩
        intro h
        rw [hsg] at h
        simp at h
  obtain ⟨t, ht, ht0⟩ := key
  rcases hs with h | ⟨sg, h⟩
  · refine ⟨[], ?_, Or.inl rfl⟩
    rw [ht, h, ht0 h]
    rfl
  · refine ⟨.newClient flags.privateKey sg :: t, ?_, Or.inr ⟨sg, t, rfl⟩⟩
    rw [ht, h]
    rfl

/-! ## Claims -/

/-- C1 (evaluation at the input of scenario A): for the records
`(parentA, 0.5, childX)`, `(parentA, 0.5, childY)` the code returns the single entry
with `StreamID = childX` and no children, not the entry `parentA` with the children
`childX` and `childY`. -/
theorem normalize_scenarioA :
    scenarioA =
      [{ ParentOf := "parentA", Weight := { Unscaled := 5, Scale := 1 }, StreamID := "childX" },
       { ParentOf := "parentA", Weight := { Unscaled := 5, Scale := 1 }, StreamID := "childY" }] ∧
    normalizeTaxonomyData (fun m => m) scenarioA = [{ StreamID := "childX", Children := [] }] ∧
    normalizeTaxonomyData List.reverse scenarioA = [{ StreamID := "childX", Children := [] }] := by
  decide

/-- C2: the number of entries returned by `normalizeTaxonomyData` is the number of
distinct `ParentOf` values of the input, whatever order the map is iterated in, and
it is the same for every permutation of the input. -/
theorem normalize_length
    (range : GoMap normalizedTaxonomyData → List (String × normalizedTaxonomyData))
    (hrange : ∀ m, (range m).Perm m) (data data2 : List TaxonomyData)
    (hperm : data2.Perm data) :
    (normalizeTaxonomyData range data).length =
        (data.map (fun d => d.ParentOf)).toFinset.card ∧
      (normalizeTaxonomyData range data2).length =
        (normalizeTaxonomyData range data).length := by
  have key : ∀ ds : List TaxonomyData, (normalizeTaxonomyData range ds).length =
      (ds.map (fun d => d.ParentOf)).toFinset.card := by
    intro ds
    rw [normalize_eq_map, List.length_map, (hrange _).length_eq, normalizeSet_length]
  refine ⟨key data, ?_⟩
  rw [key, key]
  congr 1
  apply List.toFinset_eq_of_perm
  exact hperm.map _

/-- C2 witness: three records with the two distinct parents `p` and `q`, the map
iterated in reverse insertion order, against the reversed input. -/
theorem normalize_length_witness :
    (normalizeTaxonomyData List.reverse
        [{ ParentOf := "p", Weight := { Unscaled := 5, Scale := 1 }, StreamID := "x" },
         { ParentOf := "q", Weight := { Unscaled := 5, Scale := 1 }, StreamID := "y" },
         { ParentOf := "p", Weight := { Unscaled := 5, Scale := 1 }, StreamID := "z" }]).length =
      (([{ ParentOf := "p", Weight := { Unscaled := 5, Scale := 1 }, StreamID := "x" },
         { ParentOf := "q", Weight := { Unscaled := 5, Scale := 1 }, StreamID := "y" },
         { ParentOf := "p", Weight := { Unscaled := 5, Scale := 1 }, StreamID := "z" }] :
          List TaxonomyData).map (fun d => d.ParentOf)).toFinset.card ∧
    (normalizeTaxonomyData List.reverse
        [{ ParentOf := "p", Weight := { Unscaled := 5, Scale := 1 }, StreamID := "z" },
         { ParentOf := "q", Weight := { Unscaled := 5, Scale := 1 }, StreamID := "y" },
         { ParentOf := "p", Weight := { Unscaled := 5, Scale := 1 }, StreamID := "x" }]).length =
      (normalizeTaxonomyData List.reverse
        [{ ParentOf := "p", Weight := { Unscaled := 5, Scale := 1 }, StreamID := "x" },
         { ParentOf := "q", Weight := { Unscaled := 5, Scale := 1 }, StreamID := "y" },
         { ParentOf := "p", Weight := { Unscaled := 5, Scale := 1 }, StreamID := "z" }]).length :=
  normalize_length List.reverse (fun m => List.reverse_perm m) _ _ (by decide)

/-- C3: `contains(a, b)` returns `(true, "")` exactly when every element of `b` occurs
in `a`; otherwise it returns `(false, m)` where `m` is the first element of `b`, in the
order of `b`, that does not occur in `a` (everything before `m` in `b` occurs in `a`).
The boolean is the same for any `a2`, `b2` with the same elements as `a`, `b`, hence
unchanged by reordering or duplicating elements. -/
theorem contains_spec (a b a2 b2 : List String)
    (ha : ∀ x, x ∈ a2 ↔ x ∈ a) (hb : ∀ x, x ∈ b2 ↔ x ∈ b) :
    (contains a b = (true, "") ↔ ∀ x ∈ b, x ∈ a) ∧
    ((¬ ∀ x ∈ b, x ∈ a) →
      ∃ pre m post, b = pre ++ m :: post ∧ (∀ x ∈ pre, x ∈ a) ∧ m ∉ a ∧
        contains a b = (false, m)) ∧
    (contains a2 b2).1 = (contains a b).1 := by
  refine ⟨contains_true_iff a b, ?_, ?_⟩
  · exact contains_miss a b
  · rw [contains_fst, contains_fst]
    simp [ha, hb]

/-- C3 witness: `a = [x, y]`, `b = [y, z, w]` against the reordered and duplicated
`a2 = [y, x, x]`, `b2 = [w, z, y, y]`; the first element of `b` missing from `a` is
`z`. -/
theorem contains_spec_witness :
    contains ["x", "y"] ["y", "z", "w"] = (false, "z") ∧
    contains ["x", "y"] ["y", "x", "y"] = (true, "") ∧
    ((contains ["x", "y"] ["y", "z", "w"] = (true, "") ↔
      ∀ v ∈ ["y", "z", "w"], v ∈ ["x", "y"]) ∧
    ((¬ ∀ v ∈ ["y", "z", "w"], v ∈ ["x", "y"]) →
      ∃ pre m post, ["y", "z", "w"] = pre ++ m :: post ∧ (∀ v ∈ pre, v ∈ ["x", "y"]) ∧
        m ∉ ["x", "y"] ∧ contains ["x", "y"] ["y", "z", "w"] = (false, m)) ∧
    (contains ["y", "x", "x"] ["w", "z", "y", "y"]).1 =
      (contains ["x", "y"] ["y", "z", "w"]).1) :=
  ⟨by decide, by decide,
    contains_spec ["x", "y"] ["y", "z", "w"] ["y", "x", "x"] ["w", "z", "y", "y"]
      (by simp; tauto) (by simp; tauto)⟩

/-- C4: in both commands, when the setup and the CSV load succeed and the operator
subset is non-empty and not contained in the CSV stream ids, the run fails with the
not-found-in-source error naming the first element of the subset (in its order) that is
absent from the CSV, and the trace holds no list, drop or deploy request. -/
theorem source_check_fails (env : Env) :
    (∀ (flags : PrimitiveFlags) (client : Client) (signer : Signer) (schema : Schema)
        (log : List Event) (data : List PrimitiveStreamData),
      setupMigration env [] flags.privateKey flags.rpc flags.schema =
        (.ok (client, signer, schema), log) →
      readPrimitiveCSV env flags.primitiveFile = .ok data →
      flags.schemas ≠ [] →
      (¬ ∀ x ∈ flags.schemas, x ∈ data.map (fun d => d.StreamID)) →
      ∃ pre m post, flags.schemas = pre ++ m :: post ∧
        (∀ x ∈ pre, x ∈ data.map (fun d => d.StreamID)) ∧
        m ∉ data.map (fun d => d.StreamID) ∧
        (primitiveCmd env flags).1 =
          .error ("schema " ++ m ++ " not found in primitive CSV file") ∧
        ∀ ev ∈ (primitiveCmd env flags).2, ev.isRequest = false) ∧
    (∀ (flags : ComposedFlags) (client : Client) (signer : Signer) (schema : Schema)
        (log : List Event) (data : List TaxonomyData),
      setupMigration env [] flags.privateKey flags.rpc flags.schema =
        (.ok (client, signer, schema), log) →
      readTaxonomyCSV env flags.taxonomyFile = .ok data →
      flags.schemas ≠ [] →
      (¬ ∀ x ∈ flags.schemas, x ∈ data.map (fun d => d.StreamID)) →
      ∃ pre m post, flags.schemas = pre ++ m :: post ∧
        (∀ x ∈ pre, x ∈ data.map (fun d => d.StreamID)) ∧
        m ∉ data.map (fun d => d.StreamID) ∧
        (composedCmd env flags).1 =
          .error ("schema " ++ m ++ " not found in taxonomy CSV file") ∧
        ∀ ev ∈ (composedCmd env flags).2, ev.isRequest = false) := by
  constructor
  · intro flags client signer schema log data hsetup hread hne hmiss
    obtain ⟨pre, m, post, h1, h2, h3, h4⟩ := contains_miss _ _ hmiss
    refine ⟨pre, m, post, h1, h2, h3, ?_⟩
    rw [primitiveCmd_loaded env flags client signer schema log data hsetup hread,
      primitiveResolve_source_miss env client signer schema log data flags.schemas m hne h4]
    exact ⟨rfl, setup_log_of_eq env _ _ _ _ log hsetup⟩
  · intro flags client signer schema log data hsetup hread hne hmiss
    obtain ⟨pre, m, post, h1, h2, h3, h4⟩ := contains_miss _ _ hmiss
    refine ⟨pre, m, post, h1, h2, h3, ?_⟩
    rw [composedCmd_loaded env flags client signer schema log data hsetup hread,
      composedResolve_source_miss env client signer schema log data flags.schemas m hne h4]
    exact ⟨rfl, setup_log_of_eq env _ _ _ _ log hsetup⟩

/-- C4 witness: `--schemas s1,missingID` against the two files of the concrete
environment, neither of which names `missingID`: both runs fail naming `missingID`
after the two calls of the setup. -/
theorem source_check_fails_witness :
    primitiveCmd (demoEnv ["s1", "childX"] "") (demoPrimitiveFlags ["s1", "missingID"]) =
      (.error "schema missingID not found in primitive CSV file",
        [.makeSigner "URL", .newClient "K" { Key := "URL" }]) ∧
    composedCmd (demoEnv ["s1", "childX"] "") (demoComposedFlags ["childX", "missingID"]) =
      (.error "schema missingID not found in taxonomy CSV file",
        [.makeSigner "URL", .newClient "K" { Key := "URL" }]) ∧
    (∃ pre m post, (demoPrimitiveFlags ["s1", "missingID"]).schemas = pre ++ m :: post ∧
      (∀ x ∈ pre, x ∈ demoPrimitive.map (fun d => d.StreamID)) ∧
      m ∉ demoPrimitive.map (fun d => d.StreamID) ∧
      (primitiveCmd (demoEnv ["s1", "childX"] "") (demoPrimitiveFlags ["s1", "missingID"])).1 =
        .error ("schema " ++ m ++ " not found in primitive CSV file") ∧
      ∀ ev ∈ (primitiveCmd (demoEnv ["s1", "childX"] "")
        (demoPrimitiveFlags ["s1", "missingID"])).2, ev.isRequest = false) ∧
    (∃ pre m post, (demoComposedFlags ["childX", "missingID"]).schemas = pre ++ m :: post ∧
      (∀ x ∈ pre, x ∈ scenarioA.map (fun d => d.StreamID)) ∧
      m ∉ scenarioA.map (fun d => d.StreamID) ∧
      (composedCmd (demoEnv ["s1", "childX"] "")
        (demoComposedFlags ["childX", "missingID"])).1 =
        .error ("schema " ++ m ++ " not found in taxonomy CSV file") ∧
      ∀ ev ∈ (composedCmd (demoEnv ["s1", "childX"] "")
        (demoComposedFlags ["childX", "missingID"])).2, ev.isRequest = false) :=
  ⟨by decide, by decide,
    (source_check_fails (demoEnv ["s1", "childX"] "")).1
      (demoPrimitiveFlags ["s1", "missingID"]) (demoClient ["s1", "childX"] "")
      { Key := "URL" } { Name := "", Body := "database template;" }
      [.makeSigner "URL", .newClient "K" { Key := "URL" }] demoPrimitive
      rfl (by decide) (by decide) (by decide),
    (source_check_fails (demoEnv ["s1", "childX"] "")).2
      (demoComposedFlags ["childX", "missingID"]) (demoClient ["s1", "childX"] "")
      { Key := "URL" } { Name := "", Body := "database template;" }
      [.makeSigner "URL", .newClient "K" { Key := "URL" }] scenarioA
      rfl (by decide) (by decide) (by decide)⟩

/-- C5: in both commands, when the setup and the CSV load succeed, the source check
passes, the listing of deployed streams is obtained, and some id of the working set
(the operator subset if non-empty, else all CSV stream ids) is absent from the listing,
the run fails with the not-deployed error naming the first id of the working set, in its
order, that is absent from the listing, and the trace holds no drop or deploy request. -/
theorem deployed_check_fails (env : Env) :
    (∀ (flags : PrimitiveFlags) (client : Client) (signer : Signer) (schema : Schema)
        (log : List Event) (data : List PrimitiveStreamData)
        (deployed : List DatasetIdentifier),
      setupMigration env [] flags.privateKey flags.rpc flags.schema =
        (.ok (client, signer, schema), log) →
      readPrimitiveCSV env flags.primitiveFile = .ok data →
      (flags.schemas = [] ∨ ∀ x ∈ flags.schemas, x ∈ data.map (fun d => d.StreamID)) →
      client.ListDatabases log (env.Identity signer) = .ok deployed →
      (¬ ∀ x ∈ (if flags.schemas = [] then data.map (fun d => d.StreamID) else flags.schemas),
        x ∈ deployed.map (fun s => s.Name)) →
      ∃ pre m post,
        (if flags.schemas = [] then data.map (fun d => d.StreamID) else flags.schemas) =
          pre ++ m :: post ∧
        (∀ x ∈ pre, x ∈ deployed.map (fun s => s.Name)) ∧
        m ∉ deployed.map (fun s => s.Name) ∧
        (primitiveCmd env flags).1 = .error ("schema " ++ m ++ " not deployed") ∧
        ∀ ev ∈ (primitiveCmd env flags).2, ev.isDropOrDeploy = false) ∧
    (∀ (flags : ComposedFlags) (client : Client) (signer : Signer) (schema : Schema)
        (log : List Event) (data : List TaxonomyData) (deployed : List DatasetIdentifier),
      setupMigration env [] flags.privateKey flags.rpc flags.schema =
        (.ok (client, signer, schema), log) →
      readTaxonomyCSV env flags.taxonomyFile = .ok data →
      (flags.schemas = [] ∨ ∀ x ∈ flags.schemas, x ∈ data.map (fun d => d.StreamID)) →
      client.ListDatabases log (env.Identity signer) = .ok deployed →
      (¬ ∀ x ∈ (if flags.schemas = [] then data.map (fun d => d.StreamID) else flags.schemas),
        x ∈ deployed.map (fun s => s.Name)) →
      ∃ pre m post,
        (if flags.schemas = [] then data.map (fun d => d.StreamID) else flags.schemas) =
          pre ++ m :: post ∧
        (∀ x ∈ pre, x ∈ deployed.map (fun s => s.Name)) ∧
        m ∉ deployed.map (fun s => s.Name) ∧
        (composedCmd env flags).1 = .error ("schema " ++ m ++ " not deployed") ∧
        ∀ ev ∈ (composedCmd env flags).2, ev.isDropOrDeploy = false) := by
  have hlogs : ∀ (log : List Event) (ident : String), (∀ ev ∈ log, ev.isRequest = false) →
      ∀ ev ∈ log ++ [Event.listDatabases ident], ev.isDropOrDeploy = false := by
    intro log ident hlog ev hev
    rcases List.mem_append.1 hev with h | h
    · exact isDropOrDeploy_of_not_isRequest ev (hlog ev h)
    · simp only [List.mem_singleton] at h
      subst h
      rfl
  constructor
  · intro flags client signer schema log data deployed hsetup hread hsrc hlist hmiss
    obtain ⟨pre, m, post, h1, h2, h3, h4⟩ := contains_miss _ _ hmiss
    refine ⟨pre, m, post, h1, h2, h3, ?_⟩
    rw [primitiveCmd_loaded env flags client signer schema log data hsetup hread,
      primitiveResolve_deploy_miss env client signer schema log data flags.schemas deployed m
        hsrc hlist h4]
    exact ⟨rfl, hlogs log _ (setup_log_of_eq env _ _ _ _ log hsetup)⟩
  · intro flags client signer schema log data deployed hsetup hread hsrc hlist hmiss
    obtain ⟨pre, m, post, h1, h2, h3, h4⟩ := contains_miss _ _ hmiss
    refine ⟨pre, m, post, h1, h2, h3, ?_⟩
    rw [composedCmd_loaded env flags client signer schema log data hsetup hread,
      composedResolve_deploy_miss env client signer schema log data flags.schemas deployed m
        hsrc hlist h4]
    exact ⟨rfl, hlogs log _ (setup_log_of_eq env _ _ _ _ log hsetup)⟩

/-- C5 witness: the listing holds `s1` and `childX` only.  The primitive run without
operator subset fails on `s2`, the second id of the CSV; the composed run with the
subset `childY, childX` fails on `childY`.  Both traces end with the list request. -/
theorem deployed_check_fails_witness :
    primitiveCmd (demoEnv ["s1", "childX"] "") (demoPrimitiveFlags []) =
      (.error "schema s2 not deployed",
        [.makeSigner "URL", .newClient "K" { Key := "URL" }, .listDatabases "URL"]) ∧
    composedCmd (demoEnv ["s1", "childX"] "") (demoComposedFlags ["childY", "childX"]) =
      (.error "schema childY not deployed",
        [.makeSigner "URL", .newClient "K" { Key := "URL" }, .listDatabases "URL"]) ∧
    (∃ pre m post,
      (if (demoPrimitiveFlags []).schemas = [] then demoPrimitive.map (fun d => d.StreamID)
        else (demoPrimitiveFlags []).schemas) = pre ++ m :: post ∧
      (∀ x ∈ pre, x ∈ ([{ Name := "s1", Owner := "URL" }, { Name := "childX", Owner := "URL" }] :
        List DatasetIdentifier).map (fun s => s.Name)) ∧
      m ∉ ([{ Name := "s1", Owner := "URL" }, { Name := "childX", Owner := "URL" }] :
        List DatasetIdentifier).map (fun s => s.Name) ∧
      (primitiveCmd (demoEnv ["s1", "childX"] "") (demoPrimitiveFlags [])).1 =
        .error ("schema " ++ m ++ " not deployed") ∧
      ∀ ev ∈ (primitiveCmd (demoEnv ["s1", "childX"] "") (demoPrimitiveFlags [])).2,
        ev.isDropOrDeploy = false) ∧
    (∃ pre m post,
      (if (demoComposedFlags ["childY", "childX"]).schemas = []
        then scenarioA.map (fun d => d.StreamID)
        else (demoComposedFlags ["childY", "childX"]).schemas) = pre ++ m :: post ∧
      (∀ x ∈ pre, x ∈ ([{ Name := "s1", Owner := "URL" }, { Name := "childX", Owner := "URL" }] :
        List DatasetIdentifier).map (fun s => s.Name)) ∧
      m ∉ ([{ Name := "s1", Owner := "URL" }, { Name := "childX", Owner := "URL" }] :
        List DatasetIdentifier).map (fun s => s.Name) ∧
      (composedCmd (demoEnv ["s1", "childX"] "") (demoComposedFlags ["childY", "childX"])).1 =
        .error ("schema " ++ m ++ " not deployed") ∧
      ∀ ev ∈ (composedCmd (demoEnv ["s1", "childX"] "")
        (demoComposedFlags ["childY", "childX"])).2, ev.isDropOrDeploy = false) :=
  ⟨by decide, by decide,
    (deployed_check_fails (demoEnv ["s1", "childX"] "")).1
      (demoPrimitiveFlags []) (demoClient ["s1", "childX"] "")
      { Key := "URL" } { Name := "", Body := "database template;" }
      [.makeSigner "URL", .newClient "K" { Key := "URL" }] demoPrimitive
      [{ Name := "s1", Owner := "URL" }, { Name := "childX", Owner := "URL" }]
      rfl (by decide) (by decide) rfl (by decide),
    (deployed_check_fails (demoEnv ["s1", "childX"] "")).2
      (demoComposedFlags ["childY", "childX"]) (demoClient ["s1", "childX"] "")
      { Key := "URL" } { Name := "", Body := "database template;" }
      [.makeSigner "URL", .newClient "K" { Key := "URL" }] scenarioA
      [{ Name := "s1", Owner := "URL" }, { Name := "childX", Owner := "URL" }]
      rfl (by decide) (by decide) rfl (by decide)⟩

/-- C6: for the loops of both commands over the streams `ss` (the `StreamID`s of the
entries `ds` in the composed case) and any remote client: if no call of the plan fails,
the loop returns success after exactly `drop(s_k), deploy(template named s_k)` for all
streams in order; if the first failing call is call `j` (0 the drop, 1 the deploy) of
the stream `s` at position `i`, the loop returns that error and the calls made are
exactly the full pairs of the streams before `s` followed by the calls of `s` up to and
including the failing one. -/
theorem executor_fail_fast (client : Client) (st : RunState)
    (ds : List normalizedTaxonomyData) (ss : List String)
    (hds : ds.map (fun d => d.StreamID) = ss)
    (out : Option String × RunState)
    (hout : out = primitiveLoop client st ss ∨ out = composedLoop client st ds) :
    ((∀ k, k < 2 * ss.length → planAnswer client st ss k = none) →
      out.1 = none ∧ out.2.log = st.log ++ plan st.schema ss) ∧
    (∀ (i j : Nat) (s e : String), ss[i]? = some s → j < 2 →
      (∀ k, k < 2 * i + j → planAnswer client st ss k = none) →
      planAnswer client st ss (2 * i + j) = some e →
      out.1 = some e ∧
        out.2.log = st.log ++ plan st.schema (ss.take i) ++
          (streamCalls st.schema s).take (j + 1)) := by
  have hout2 : out = primitiveLoop client st ss := by
    rcases hout with h | h
    · exact h
    · rw [h, composedLoop_eq, hds]
  subst hout2
  refine ⟨primitiveLoop_ok client ss st, ?_⟩
  intro i j s e hs hj hbefore hfail
  obtain ⟨h1, h2⟩ := primitiveLoop_fail client ss st (2 * i + j) e hbefore hfail
  refine ⟨h1, ?_⟩
  rw [h2, plan_take st.schema ss i j s hs hj, List.append_assoc]

/-- C6 witness: the primitive loop over `a`, `b`, `c` with a client that accepts
every call makes the six planned calls and succeeds; the composed loop over the entries
`a`, `b`, `c` with a client that rejects the deploy of `b` makes the drop and deploy of
`a`, then the drop and the failing deploy of `b`, and nothing for `c`. -/
theorem executor_fail_fast_witness :
    (primitiveLoop (demoClient [] "") demoState ["a", "b", "c"]).2.log =
      [.dropDatabase "a", .deployDatabase { Name := "a", Body := "t" },
       .dropDatabase "b", .deployDatabase { Name := "b", Body := "t" },
       .dropDatabase "c", .deployDatabase { Name := "c", Body := "t" }] ∧
    (composedLoop (demoClient [] "b") demoState demoEntries).2.log =
      [.dropDatabase "a", .deployDatabase { Name := "a", Body := "t" },
       .dropDatabase "b", .deployDatabase { Name := "b", Body := "t" }] ∧
    ((primitiveLoop (demoClient [] "") demoState ["a", "b", "c"]).1 = none ∧
      (primitiveLoop (demoClient [] "") demoState ["a", "b", "c"]).2.log =
        demoState.log ++ plan demoState.schema ["a", "b", "c"]) ∧
    ((composedLoop (demoClient [] "b") demoState demoEntries).1 = some "deploy rejected" ∧
      (composedLoop (demoClient [] "b") demoState demoEntries).2.log =
        demoState.log ++ plan demoState.schema (["a", "b", "c"].take 1) ++
          (streamCalls demoState.schema "b").take (1 + 1)) :=
  ⟨by decide, by decide,
   (executor_fail_fast (demoClient [] "") demoState demoEntries ["a", "b", "c"] rfl _
      (Or.inl rfl)).1 (by decide),
   (executor_fail_fast (demoClient [] "b") demoState demoEntries ["a", "b", "c"] rfl _
      (Or.inr rfl)).2 1 1 "b" "deploy rejected"
      (by decide) (by decide) (by decide) (by decide)⟩

/-- C7 (evaluation at a failing input): the taxonomy file holds the rows
`(parentA, 0.5, t, childX)` and `(parentA, 0.5, t, childY)`, no operator subset is
given, both `childX` and `childY` are deployed and every remote call succeeds.  The
load gives the working set `childX`, `childY`, both containment checks pass and the
run succeeds, yet the only stream dropped and redeployed is `childX`. -/
theorem composed_skips_stream :
    readTaxonomyCSV (demoEnv ["childX", "childY"] "") "taxonomy.csv" = .ok scenarioA ∧
    scenarioA.map (fun d => d.StreamID) = ["childX", "childY"] ∧
    contains ["childX", "childY"] ["childX", "childY"] = (true, "") ∧
    composedCmd (demoEnv ["childX", "childY"] "") (demoComposedFlags []) =
      (.ok (),
        [.makeSigner "URL", .newClient "K" { Key := "URL" }, .listDatabases "URL",
         .dropDatabase "childX",
         .deployDatabase { Name := "childX", Body := "database template;" }]) := by
  decide

/-- C8: `removeUnnecessaryTaxonomyData` returns exactly the input entries whose
`StreamID` occurs in the stream-id list, in input order and unchanged; a stream-id
list with the same elements (reordered, duplicated) gives the same result. -/
theorem removeUnnecessary_spec (data : List normalizedTaxonomyData)
    (streamIDs streamIDs2 : List String) (h : ∀ x, x ∈ streamIDs2 ↔ x ∈ streamIDs) :
    removeUnnecessaryTaxonomyData data streamIDs =
        data.filter (fun d => decide (d.StreamID ∈ streamIDs)) ∧
      removeUnnecessaryTaxonomyData data streamIDs2 =
        removeUnnecessaryTaxonomyData data streamIDs := by
  refine ⟨removeUnnecessary_eq_filter data streamIDs, ?_⟩
  rw [removeUnnecessary_eq_filter, removeUnnecessary_eq_filter]
  apply List.filter_congr
  intro d _
  simp [h]

/-- C8 witness: the entries `a` (with one child), `c`, `b` filtered by `[b, a, b]` and
by `[a, b]`: `a` and `b` are kept, in input order, `a` with its child. -/
theorem removeUnnecessary_spec_witness :
    removeUnnecessaryTaxonomyData
        [{ StreamID := "a", Children := [{ ID := "x", Weight := { Unscaled := 5, Scale := 1 } }] },
         { StreamID := "c", Children := [] },
         { StreamID := "b", Children := [] }] ["b", "a", "b"] =
      [{ StreamID := "a", Children := [{ ID := "x", Weight := { Unscaled := 5, Scale := 1 } }] },
       { StreamID := "b", Children := [] }] ∧
    (removeUnnecessaryTaxonomyData
        [{ StreamID := "a", Children := [{ ID := "x", Weight := { Unscaled := 5, Scale := 1 } }] },
         { StreamID := "c", Children := [] },
         { StreamID := "b", Children := [] }] ["b", "a", "b"] =
      ([{ StreamID := "a", Children := [{ ID := "x", Weight := { Unscaled := 5, Scale := 1 } }] },
         { StreamID := "c", Children := [] },
         { StreamID := "b", Children := [] }] : List normalizedTaxonomyData).filter
        (fun d => decide (d.StreamID ∈ ["b", "a", "b"])) ∧
    removeUnnecessaryTaxonomyData
        [{ StreamID := "a", Children := [{ ID := "x", Weight := { Unscaled := 5, Scale := 1 } }] },
         { StreamID := "c", Children := [] },
         { StreamID := "b", Children := [] }] ["a", "b"] =
      removeUnnecessaryTaxonomyData
        [{ StreamID := "a", Children := [{ ID := "x", Weight := { Unscaled := 5, Scale := 1 } }] },
         { StreamID := "c", Children := [] },
         { StreamID := "b", Children := [] }] ["b", "a", "b"]) :=
  ⟨by decide, removeUnnecessary_spec _ ["b", "a", "b"] ["a", "b"] (by simp)⟩

/-- C9 (evaluation at a failing input): a taxonomy file and a primitive file whose
header and rows all have three fields are accepted by the CSV reader, and the record
loops of both loaders then index field 3 of a three-field record, which panics. -/
theorem loaders_index_out_of_range :
    (demoEnv [] "").Open "taxonomy3.csv" =
      .ok [["parent_of", "weight", "stream_id"], ["parentA", "0.5", "childX"]] ∧
    readRecords (demoEnv [] "") "taxonomy3.csv" = .ok [["parentA", "0.5", "childX"]] ∧
    readTaxonomyCSV (demoEnv [] "") "taxonomy3.csv" = .panic "index out of range" ∧
    (demoEnv [] "").Open "primitive3.csv" =
      .ok [["stream_id", "source_type", "source_id"], ["s1", "api", "id1"]] ∧
    readRecords (demoEnv [] "") "primitive3.csv" = .ok [["s1", "api", "id1"]] ∧
    readPrimitiveCSV (demoEnv [] "") "primitive3.csv" = .panic "index out of range" := by
  refine ⟨rfl, rfl, by decide, rfl, rfl, by decide⟩

/-- C10 (evaluation at a failing input): with `--private-key K --rpc URL`, both
commands hand `URL` to `makeSigner` and `K` to `client.NewClient`. -/
theorem setup_arguments_swapped :
    (demoPrimitiveFlags []).privateKey = "K" ∧ (demoPrimitiveFlags []).rpc = "URL" ∧
    (demoComposedFlags []).privateKey = "K" ∧ (demoComposedFlags []).rpc = "URL" ∧
    (primitiveCmd (demoEnv ["s1", "s2"] "") (demoPrimitiveFlags [])).2.take 2 =
      [.makeSigner "URL", .newClient "K" { Key := "URL" }] ∧
    (composedCmd (demoEnv ["childX", "childY"] "") (demoComposedFlags [])).2.take 2 =
      [.makeSigner "URL", .newClient "K" { Key := "URL" }] := by
  decide

end Trufgrate
